import Mathlib

/-!
Shallow embedding of the navigation and rendering core of the `lira`
terminal reader (files `lira/tui/widgets.py` and `lira/ui.py`).

The `List` widget of `widgets.py` is embedded as a state record `LState`
(its mutable fields `index`, `selected`, `cursor`) together with the fixed
element sequence, passed explicitly to each operation.  Callbacks
(`on_select` / `on_focus`) are opaque thunks in the source that never
mutate the list itself (they push views or render content), so they are
modelled as `Option Bool`: `none` = no callback, `some raises` = a callback
that raises iff `raises`.  Each operation returns an `Outcome`: the state
after the call (Python mutates the fields before the element lookup and
the callback, so the state is updated even when the call raises), the
trace of callback invocations, and whether the call completed without an
exception.
-/

namespace Lira

/-- A callback-invocation event: the list element index whose `on_select`
or `on_focus` callback was entered. -/
inductive Ev where
  | selectCb : Int → Ev
  | focusCb : Int → Ev
deriving DecidableEq, Repr

/-- Source `ListElement` of `widgets.py`: display text plus optional callbacks.
A callback is `some raises`: present, raising an exception iff `raises`. -/
structure ListElement where
  text : String
  on_select : Option Bool
  on_focus : Option Bool
deriving DecidableEq, Repr

/-- The mutable fields of the `List` widget: `self.index` (focus),
`self.selected` (committed, `-1` = none) and `self.cursor` (a `Point(x, y)`). -/
structure LState where
  index : Int
  selected : Int
  cursor : Int × Int
deriving DecidableEq, Repr

/-- Result of one operation: state after the call (mutations happen before
any exception), trace of callback invocations, and completion flag. -/
structure Outcome where
  state : LState
  trace : List Ev
  ok : Bool
deriving DecidableEq, Repr

/-- Python list indexing `xs[i]` for `int` `i`: negative indices count from
the end; out of range yields `none` (an `IndexError`). -/
def pyGet (xs : List α) (i : Int) : Option α :=
  let j := if i < 0 then i + xs.length else i
  if 0 ≤ j then xs.get? j.toNat else none

/-- The `List.__init__` state: `index = 0`, `selected = -1`, `cursor = Point(0, 0)`. -/
def initState : LState := ⟨0, -1, (0, 0)⟩

/-- Embeds `List.select` (the commit primitive): assigns `index`, `selected` and
`cursor`, then looks the element up (`IndexError` possible) and invokes its
`on_select` callback when present. -/
def select (elems : List ListElement) (_s : LState) (i : Int) : Outcome :=
  let s' : LState := { index := i, selected := i, cursor := (0, i) }
  match pyGet elems i with
  | none => { state := s', trace := [], ok := false }
  | some el =>
    match el.on_select with
    | none => { state := s', trace := [], ok := true }
    | some raises => { state := s', trace := [Ev.selectCb i], ok := !raises }

/-- Embeds `List.focus`: assigns `index` and `cursor` (leaving `selected` alone),
then looks the element up and invokes its `on_focus` callback when present. -/
def focus (elems : List ListElement) (s : LState) (i : Int) : Outcome :=
  let s' : LState := { s with index := i, cursor := (0, i) }
  match pyGet elems i with
  | none => { state := s', trace := [], ok := false }
  | some el =>
    match el.on_focus with
    | none => { state := s', trace := [], ok := true }
    | some raises => { state := s', trace := [Ev.focusCb i], ok := !raises }

/-- Embeds `List.previous`: `focus(max(index - 1, 0))`. -/
def previous (elems : List ListElement) (s : LState) : Outcome :=
  focus elems s (max (s.index - 1) 0)

/-- Embeds `List.next`: `focus(min(index + 1, len(elements) - 1))`. -/
def next (elems : List ListElement) (s : LState) : Outcome :=
  focus elems s (min (s.index + 1) ((elems.length : Int) - 1))

/-- The mouse event kinds of `prompt_toolkit.mouse_events.MouseEventType`. -/
inductive MouseEventType where
  | MOUSE_UP | MOUSE_DOWN | MOUSE_MOVE | SCROLL_UP | SCROLL_DOWN
deriving DecidableEq, Repr

/-- Embeds `List.mouse_select`: on `MOUSE_UP` over row `i`, call `select(i)`;
any other event is ignored. -/
def mouse_select (elems : List ListElement) (s : LState) (i : Int)
    (ev : MouseEventType) : Outcome :=
  match ev with
  | .MOUSE_UP => select elems s i
  | _ => { state := s, trace := [], ok := true }

/-- Pressing Down `k` times: each key event runs `List.next`; the state
mutation survives even if the `on_focus` callback raises, since `focus`
assigns the fields first. -/
def iterNext (elems : List ListElement) : Nat → LState → LState
  | 0, s => s
  | Nat.succ k, s => iterNext elems k (next elems s).state

/-- Python `text.replace("\n", " ")`: with a one-character pattern and
replacement this is the character-wise substitution. -/
def pyReplaceNl (s : String) : String :=
  String.mk (s.data.map fun c => if c = '\n' then ' ' else c)

/-- The loop body of `List._get_text`, carried out with the element count
`n` (`len(self.elements)`), the focus index, and the running enumeration
counter `i`.  Each row is a `(style, text, handler-row)` run: style marks
the focused row, the text gets a line separator appended on every row but
the last, and the handler is `partial(self.mouse_select, i)`. -/
def getTextGo (n : Nat) (focusIdx : Int) (i : Nat) :
    List ListElement → List (String × String × Nat)
  | [] => []
  | el :: rest =>
    let text := pyReplaceNl el.text ++ (if (i : Int) < (n : Int) - 1 then "\n" else "")
    let style := if (i : Int) = focusIdx then "class:list-item.focused" else ""
    (style, text, i) :: getTextGo n focusIdx (i + 1) rest

/-- Embeds `List._get_text`: the render callback of the list control. -/
def get_text (elems : List ListElement) (s : LState) :
    List (String × String × Nat) :=
  getTextGo elems.length s.index 0 elems

/-- A parsed content node as seen by `ContentArea.get_label`:
a `tagname` and the result of its `text()` accessor. -/
structure Node where
  tagname : String
  text : String
deriving DecidableEq, Repr

/-- The `themes["default"]` style table of `ui.py` (the module-level
`styles` dict used by `ContentArea.get_label`). -/
def styles : List (String × String) :=
  [("Text", "#fff"), ("Strong", "#fff bold"), ("Emphasis", "#fff italic"),
   ("Literal", "#fff"), ("Paragraph", "#fff"), ("CodeBlock", "#fff"),
   ("Prompt", "bg:#999999 #fff"), ("TestBlock", "#fff"),
   ("Section", "#fff"), ("Separator", "#fff")]

/-- The dict lookup `styles[style]` of `get_label`; `none` is a `KeyError`. -/
def lookupStyle (tag : String) : Option String :=
  styles.lookup tag

/-- Embeds `ContentArea.get_label`: walk the node children in order; each node
contributes a `(style, text)` span via the `styles` dict (a `KeyError`
aborts the render), and a `Paragraph` node additionally appends a
`("", "\n")` line-break span. -/
def get_label : List Node → Except Unit (List (String × String))
  | [] => Except.ok []
  | n :: rest =>
    match lookupStyle n.tagname with
    | none => Except.error ()
    | some sty =>
      match get_label rest with
      | Except.error e => Except.error e
      | Except.ok spans =>
        Except.ok ((sty, n.text) ::
          ((if n.tagname = "Paragraph" then [(("" : String), "\n")] else []) ++ spans))

/-- The spans one node contributes to `get_label`'s output when its tag
resolves (empty when it does not). -/
def nodeSpans (n : Node) : List (String × String) :=
  match lookupStyle n.tagname with
  | none => []
  | some sty =>
    (sty, n.text) :: (if n.tagname = "Paragraph" then [(("" : String), "\n")] else [])

/-- One entry of `chapter.toc(depth=1)`: the section's `options.title`.
Its `on_select` callback (`partial(self._select, section)`) renders the
section content and does not raise. -/
structure SectionEntry where
  title : String
deriving DecidableEq, Repr

/-- Embeds `ChapterSectionsList._get_elements`: one element per toc entry,
with the section-rendering `on_select` callback and no `on_focus`. -/
def sectionElements (toc : List SectionEntry) : List ListElement :=
  toc.map fun sec => { text := sec.title, on_select := some false, on_focus := none }

/-- The observable result of constructing a `ChapterSectionsList`. -/
structure ChapterSectionsList where
  allow_select : Bool
  elements : List ListElement
  state : LState
  trace : List Ev
  ok : Bool
deriving DecidableEq, Repr

/-- Embeds `ChapterSectionsList.__init__`: builds the inner `List` with
`allow_select = True` (the class attribute) over the toc-derived elements,
then runs `self.container.select(0)` to select the first item automatically. -/
def mkChapterSectionsList (toc : List SectionEntry) : ChapterSectionsList :=
  let elems := sectionElements toc
  let o := select elems initState 0
  { allow_select := true, elements := elems, state := o.state,
    trace := o.trace, ok := o.ok }

/-- The three-row list `["A", "B", "C"]` of the spec scenarios, rows
without callbacks. -/
def demoABC : List ListElement :=
  [⟨"A", none, none⟩, ⟨"B", none, none⟩, ⟨"C", none, none⟩]

/-! Helper lemmas -/

/-- Operation `select` leaves `index = selected = i` and `cursor = (0, i)` in every
branch: the assignments happen before the lookup and the callback. -/
theorem select_state_eq (elems : List ListElement) (s : LState) (i : Int) :
    (select elems s i).state = ⟨i, i, (0, i)⟩ := by
  cases h : pyGet elems i with
  | none => simp [select, h]
  | some el => cases h2 : el.on_select <;> simp [select, h, h2]

/-- Operation `focus` leaves `index = i`, `selected` untouched and `cursor = (0, i)`
in every branch. -/
theorem focus_state_eq (elems : List ListElement) (s : LState) (i : Int) :
    (focus elems s i).state = ⟨i, s.selected, (0, i)⟩ := by
  cases h : pyGet elems i with
  | none => simp [focus, h]
  | some el => cases h2 : el.on_focus <;> simp [focus, h, h2]

/-- For a non-negative index, Python indexing is plain list indexing. -/
theorem pyGet_nonneg (xs : List α) (i : Int) (h : 0 ≤ i) :
    pyGet xs i = xs.get? i.toNat := by
  unfold pyGet
  have hnot : ¬ i < 0 := by omega
  simp [hnot, h]

/-! Claim C1 -/

/-- C1: for every list state and valid element index `i`, `commit(i)`
(the source's `List.select`) sets both `focus_index` and `committed_index`
to `i`, and enters the element's `on_select` callback exactly once when it
is present (and never when it is absent). -/
theorem select_commits_and_invokes_once (elems : List ListElement)
    (s : LState) (i : Int) (el : ListElement) (h0 : 0 ≤ i)
    (hget : elems.get? i.toNat = some el) :
    (select elems s i).state.index = i ∧
    (select elems s i).state.selected = i ∧
    (el.on_select.isSome → (select elems s i).trace = [Ev.selectCb i]) ∧
    (el.on_select = none → (select elems s i).trace = []) := by
  have hp : pyGet elems i = some el := by rw [pyGet_nonneg elems i h0, hget]
  refine ⟨by rw [select_state_eq], by rw [select_state_eq], ?_, ?_⟩
  · intro hsome
    obtain ⟨b, hb⟩ := Option.isSome_iff_exists.mp hsome
    simp [select, hp, hb]
  · intro hnone
    simp [select, hp, hnone]

/-- C1 witness: committing row 0 of a one-row list with an `on_select`
callback sets both indices to 0 and invokes the callback exactly once. -/
theorem select_commits_and_invokes_once_witness :
    (select [⟨"A", some false, none⟩] initState 0).state.index = 0 ∧
    (select [⟨"A", some false, none⟩] initState 0).state.selected = 0 ∧
    (select [⟨"A", some false, none⟩] initState 0).trace = [Ev.selectCb 0] := by
  have h := select_commits_and_invokes_once [⟨"A", some false, none⟩]
    initState 0 ⟨"A", some false, none⟩ (by decide) (by decide)
  exact ⟨h.1, h.2.1, h.2.2.1 (by decide)⟩

/-! Claim C2 -/

/-- C2 counterexample: `focus(5)` on a one-element list leaves
`focus_index = 5`, outside `[0, 0]` — `focus` performs no clamping. -/
theorem focus_does_not_clamp_cex :
    (focus [⟨"A", none, none⟩] initState 5).state.index = 5 ∧
    ([(⟨"A", none, none⟩ : ListElement)] : List ListElement).length = 1 ∧
    ¬ (focus [⟨"A", none, none⟩] initState 5).state.index ≤ 0 := by decide

/-- C2 amended: `focus(i)` sets `focus_index = i` unconditionally (no
clamping; the clamping happens in `move_previous`/`move_next` before they
call `focus`), sets the cursor to `(0, i)` and preserves `committed_index`;
when `i` resolves to an element whose `on_focus` callback is present, that
callback is invoked; `move_previous`/`move_next` are the operations that
keep the index inside `[0, len-1]`. -/
theorem focus_amended (elems : List ListElement) (s : LState) (i : Int) :
    ((focus elems s i).state.index = i ∧
     (focus elems s i).state.cursor = (0, i) ∧
     (focus elems s i).state.selected = s.selected) ∧
    (∀ el : ListElement, pyGet elems i = some el → el.on_focus.isSome →
      (focus elems s i).trace = [Ev.focusCb i]) ∧
    ((previous elems s).state.index = max (s.index - 1) 0 ∧
     (next elems s).state.index = min (s.index + 1) ((elems.length : Int) - 1)) := by
  refine ⟨⟨by rw [focus_state_eq], by rw [focus_state_eq], by rw [focus_state_eq]⟩,
    ?_, by rw [previous, focus_state_eq], by rw [next, focus_state_eq]⟩
  intro el hel hsome
  obtain ⟨b, hb⟩ := Option.isSome_iff_exists.mp hsome
  simp [focus, hel, hb]

/-- C2 amended witness: focusing row 0 of a one-row list whose element has
an `on_focus` callback invokes that callback, sets the index to 0 and
leaves `committed_index` at `-1`. -/
theorem focus_amended_witness :
    (focus [⟨"A", none, some false⟩] initState 0).trace = [Ev.focusCb 0] ∧
    (focus [⟨"A", none, some false⟩] initState 0).state.index = 0 ∧
    (focus [⟨"A", none, some false⟩] initState 0).state.selected = -1 := by
  have h := focus_amended [⟨"A", none, some false⟩] initState 0
  exact ⟨h.2.1 ⟨"A", none, some false⟩ (by decide) (by decide), h.1.1, h.1.2.2⟩

/-! Claim C5 -/

/-- C5 counterexample: committing row 0 whose `on_select` callback raises
fails, yet `committed_index` has changed from `-1` to `0` (and the focus
index and cursor moved too) — a failed commit does not leave the previous
state intact. -/
theorem failed_commit_mutates_state_cex :
    (select [⟨"A", some true, none⟩] initState 0).ok = false ∧
    ¬ (select [⟨"A", some true, none⟩] initState 0).state.selected
        = initState.selected := by decide

/-- C5 amended: when a commit or focus call fails (out-of-range lookup or
raising callback), the observable state has already been updated: `select`
leaves `index = selected = i` and `cursor = (0, i)`, and `focus` leaves
`index = i` and `cursor = (0, i)` with `selected` preserved — the fields
are assigned before the failure point, so the previous values are not
restored. -/
theorem failed_call_leaves_new_state (elems : List ListElement)
    (s : LState) (i : Int) :
    ((select elems s i).ok = false →
      (select elems s i).state = ⟨i, i, (0, i)⟩) ∧
    ((focus elems s i).ok = false →
      (focus elems s i).state = ⟨i, s.selected, (0, i)⟩) :=
  ⟨fun _ => select_state_eq elems s i, fun _ => focus_state_eq elems s i⟩

/-- C5 amended witness: the failing commit of the counterexample input
indeed leaves the freshly assigned state. -/
theorem failed_call_leaves_new_state_witness :
    (select [⟨"A", some true, none⟩] initState 0).state
      = ⟨0, 0, (0, 0)⟩ :=
  (failed_call_leaves_new_state [⟨"A", some true, none⟩] initState 0).1
    (by decide)

/-! Claim C8 -/

/-- C8: a pointer-release (`MOUSE_UP`) over row `i` produces exactly the
outcome of `commit(i)` — same state and same callback invocations — and on
`["A","B","C"]` from focus 0, pointer-release on row 1 yields the same
state as pressing Down once (`List.next`) and then Enter
(`List.select` at the current index). -/
theorem mouse_up_equals_commit :
    (∀ (elems : List ListElement) (s : LState) (i : Int),
      mouse_select elems s i MouseEventType.MOUSE_UP = select elems s i) ∧
    (mouse_select demoABC initState 1 MouseEventType.MOUSE_UP).state =
      (select demoABC (next demoABC initState).state
        (next demoABC initState).state.index).state := by
  exact ⟨fun elems s i => rfl, by decide⟩

/-! Claim C10 -/

/-- C10: after any `select`, `focus`, `previous` or `next` call, the
exposed cursor equals `(0, focus_index)`: the visual cursor row tracks the
focused row. -/
theorem cursor_tracks_focus (elems : List ListElement) (s : LState) (i : Int) :
    (select elems s i).state.cursor = (0, (select elems s i).state.index) ∧
    (focus elems s i).state.cursor = (0, (focus elems s i).state.index) ∧
    (previous elems s).state.cursor = (0, (previous elems s).state.index) ∧
    (next elems s).state.cursor = (0, (next elems s).state.index) := by
  refine ⟨?_, ?_, ?_, ?_⟩ <;>
    simp [select_state_eq, focus_state_eq, previous, next]

/-! Claim C3 -/

/-- On a non-empty list, repeated `next` from a valid focus clamps at the
last row: after `k` presses the index is `min (start + k) (len - 1)`. -/
theorem iterNext_index (elems : List ListElement) (hne : elems ≠ []) (k : Nat) :
    ∀ s : LState, 0 ≤ s.index → s.index ≤ (elems.length : Int) - 1 →
      (iterNext elems k s).index = min (s.index + k) ((elems.length : Int) - 1) := by
  induction k with
  | zero =>
    intro s h0 h1
    simp only [iterNext, Nat.cast_zero, Int.add_zero]
    omega
  | succ k ih =>
    intro s h0 h1
    have hlen : 0 < elems.length := List.length_pos.mpr hne
    have hnext : (next elems s).state.index
        = min (s.index + 1) ((elems.length : Int) - 1) := by
      rw [next, focus_state_eq]
    have h0' : 0 ≤ (next elems s).state.index := by rw [hnext]; omega
    have h1' : (next elems s).state.index ≤ (elems.length : Int) - 1 := by
      rw [hnext]; omega
    have hstep := ih ((next elems s).state) h0' h1'
    simp only [iterNext]
    rw [hstep, hnext]
    have hcast : ((k + 1 : Nat) : Int) = (k : Int) + 1 := by omega
    omega

/-- C3: on a non-empty list with `N` elements, movement is clamped and
never wraps: `move_next` pressed `N` times from focus 0 ends at focus
`N - 1`; after any number of presses the focus never exceeds `N - 1`; and
`move_previous` at focus 0 leaves the focus index unchanged. -/
theorem movement_clamped_not_wrapped (elems : List ListElement)
    (hne : elems ≠ []) :
    (iterNext elems elems.length initState).index = (elems.length : Int) - 1 ∧
    (∀ k : Nat, (iterNext elems k initState).index ≤ (elems.length : Int) - 1) ∧
    (∀ s : LState, s.index = 0 → (previous elems s).state.index = 0) := by
  have hlen : 0 < elems.length := List.length_pos.mpr hne
  have hinit : initState.index = 0 := rfl
  refine ⟨?_, ?_, ?_⟩
  · rw [iterNext_index elems hne elems.length initState (by omega) (by omega)]
    omega
  · intro k
    rw [iterNext_index elems hne k initState (by omega) (by omega)]
    omega
  · intro s hs
    rw [previous, focus_state_eq]
    simp only [hs]
    omega

/-- C3 witness: on the three-row list, three Down presses from focus 0 end
at focus 2, five presses still end at focus 2, and `move_previous` at
focus 0 keeps focus 0. -/
theorem movement_clamped_not_wrapped_witness :
    (iterNext demoABC demoABC.length initState).index = 2 ∧
    (iterNext demoABC 5 initState).index ≤ 2 ∧
    (previous demoABC initState).state.index = 0 := by
  have h := movement_clamped_not_wrapped demoABC (by decide)
  refine ⟨?_, ?_, h.2.2 initState rfl⟩
  · rw [h.1]; decide
  · have := h.2.1 5
    have hlen : ((demoABC.length : Int) - 1) = 2 := by decide
    omega

/-! Claim C4 -/

/-- C4 counterexample: the tag `"Unknown"` is not in the `styles` table and
`get_label` on a node carrying it raises `KeyError` — the render fails
instead of resolving to a default style. -/
theorem unknown_tag_render_fails_cex :
    lookupStyle "Unknown" = none ∧
    get_label [⟨"Unknown", "x"⟩] = Except.error () ∧
    (get_label [⟨"Unknown", "x"⟩]).toOption = none := by
  refine ⟨by decide, rfl, rfl⟩

/-- C4 amended: `get_label` does not fall back to a default style — the
render call completes exactly when every node's tag is a key of the
`styles` table, and any node with an unknown tag makes it fail with a
`KeyError`. -/
theorem get_label_ok_iff_known_tags (ns : List Node) :
    (get_label ns).toOption.isSome
      = ns.all (fun n => (lookupStyle n.tagname).isSome) := by
  induction ns with
  | nil => rfl
  | cons n rest ih =>
    cases h : lookupStyle n.tagname with
    | none => simp [get_label, h, Except.toOption]
    | some sty =>
      rw [List.all_cons, ← ih]
      cases h2 : get_label rest <;> simp [get_label, h, h2, Except.toOption]

/-! Claim C6 -/

/-- C6: constructing a Section-level view (`ChapterSectionsList`) over a
chapter with a non-empty table of contents auto-commits element 0: right
after construction `committed_index = 0` (and `focus_index = 0`), the
first section's `on_select` render callback has run exactly once, the
construction raises no error, and the commit-marker column
(`allow_select`) is enabled. -/
theorem chapter_sections_auto_commits_first (toc : List SectionEntry)
    (hne : toc ≠ []) :
    (mkChapterSectionsList toc).state.selected = 0 ∧
    (mkChapterSectionsList toc).state.index = 0 ∧
    (mkChapterSectionsList toc).allow_select = true ∧
    (mkChapterSectionsList toc).trace = [Ev.selectCb 0] ∧
    (mkChapterSectionsList toc).ok = true := by
  obtain ⟨e, rest, rfl⟩ := List.exists_cons_of_ne_nil hne
  simp [mkChapterSectionsList, sectionElements, select, pyGet]

/-- C6 witness: a two-section chapter view is constructed with
`committed_index = 0` and the commit-marker column enabled. -/
theorem chapter_sections_auto_commits_first_witness :
    (mkChapterSectionsList [⟨"s1"⟩, ⟨"s2"⟩]).state.selected = 0 ∧
    (mkChapterSectionsList [⟨"s1"⟩, ⟨"s2"⟩]).allow_select = true := by
  have h := chapter_sections_auto_commits_first [⟨"s1"⟩, ⟨"s2"⟩] (by decide)
  exact ⟨h.1, h.2.2.1⟩

/-! Claim C7 -/

/-- When every tag resolves, `get_label` is the concatenation of the
per-node span lists. -/
theorem get_label_eq_flatMap (ns : List Node)
    (h : ∀ n ∈ ns, (lookupStyle n.tagname).isSome) :
    get_label ns = Except.ok (ns.flatMap nodeSpans) := by
  induction ns with
  | nil => rfl
  | cons n rest ih =>
    obtain ⟨sty, hsty⟩ := Option.isSome_iff_exists.mp (h n (by simp))
    rw [List.flatMap_cons]
    simp [get_label, hsty, nodeSpans,
      ih (fun m hm => h m (List.mem_cons_of_mem n hm))]

/-- C7: in a fully resolvable node sequence the rendered spans are the
per-node spans in order; a `Paragraph` node's span is always immediately
followed by the appended `("", "\n")` line-break span; and a `Paragraph`
node followed by a `Literal` node yields exactly the span order paragraph,
line break, literal. -/
theorem paragraph_followed_by_linebreak :
    (∀ ns : List Node, (∀ n ∈ ns, (lookupStyle n.tagname).isSome) →
      get_label ns = Except.ok (ns.flatMap nodeSpans)) ∧
    (∀ n : Node, n.tagname = "Paragraph" →
      nodeSpans n = [("#fff", n.text), ("", "\n")]) ∧
    (∀ p l : Node, p.tagname = "Paragraph" → l.tagname = "Literal" →
      get_label [p, l] =
        Except.ok [("#fff", p.text), ("", "\n"), ("#fff", l.text)]) := by
  have hpar : lookupStyle "Paragraph" = some "#fff" := by decide
  have hlit : lookupStyle "Literal" = some "#fff" := by decide
  have hne : ("Literal" : String) ≠ "Paragraph" := by decide
  refine ⟨get_label_eq_flatMap, ?_, ?_⟩
  · intro n hn
    simp [nodeSpans, hn, hpar]
  · intro p l hp hl
    simp [get_label, hp, hl, hpar, hlit, hne]

/-- C7 witness: rendering a concrete paragraph node followed by a literal
node produces the paragraph span, then the line-break span, then the
literal span. -/
theorem paragraph_followed_by_linebreak_witness :
    get_label [⟨"Paragraph", "p"⟩, ⟨"Literal", "l"⟩] =
      Except.ok [("#fff", "p"), ("", "\n"), ("#fff", "l")] :=
  paragraph_followed_by_linebreak.2.2 ⟨"Paragraph", "p"⟩ ⟨"Literal", "l"⟩
    rfl rfl

/-! Claim C9 -/

/-- After Python's `text.replace("\n", " ")` no newline remains, so the
run text cannot end in a line separator unless one was appended. -/
theorem pyReplaceNl_getLast_ne (t : String) :
    ¬ (pyReplaceNl t).data.getLast? = some '\n' := by
  intro h
  have hmem : '\n' ∈ (pyReplaceNl t).data := List.mem_of_getLast?_eq_some h
  simp only [pyReplaceNl, List.mem_map] at hmem
  obtain ⟨c, _, heq⟩ := hmem
  by_cases h' : c = '\n' <;> simp [h'] at heq

/-- A run whose text got the separator appended ends in `'\n'`. -/
theorem sep_appended_getLast (t : String) :
    (pyReplaceNl t ++ "\n").data.getLast? = some '\n' := by
  have hd : ("\n" : String).data = ['\n'] := rfl
  rw [String.data_append, hd, List.getLast?_concat]

/-- The render loop produces one run per element. -/
theorem getTextGo_length (n : Nat) (fi : Int) (l : List ListElement) :
    ∀ i : Nat, (getTextGo n fi i l).length = l.length := by
  induction l with
  | nil => intro i; rfl
  | cons el rest ih => intro i; simp [getTextGo, ih]

/-- Among the runs produced from position `i` on (with `i + len = n`), all
but the last end in a line separator. -/
theorem getTextGo_count (n : Nat) (fi : Int) (l : List ListElement) :
    ∀ i : Nat, i + l.length = n →
      (getTextGo n fi i l).countP
          (fun r => decide (r.2.1.data.getLast? = some '\n'))
        = l.length - 1 := by
  induction l with
  | nil => intro i _; rfl
  | cons el rest ih =>
    intro i h
    simp only [getTextGo, List.countP_cons]
    cases rest with
    | nil =>
      have hlast : ¬ ((i : Int) < (n : Int) - 1) := by
        simp only [List.length_cons, List.length_nil] at h
        omega
      simp [getTextGo, hlast, pyReplaceNl_getLast_ne]
    | cons r rs =>
      have hmid : (i : Int) < (n : Int) - 1 := by
        simp only [List.length_cons] at h
        omega
      have hih := ih (i + 1) (by simp only [List.length_cons] at h ⊢; omega)
      simp only [List.length_cons] at h ⊢
      simp [hmid, sep_appended_getLast, hih]

/-- C9: the render callback (`List._get_text`) produces one text run per
element, and exactly the runs of all rows but the last end in an appended
line separator — `N - 1` line-separator insertions for `N` elements. -/
theorem render_one_run_per_element (elems : List ListElement) (s : LState) :
    (get_text elems s).length = elems.length ∧
    (get_text elems s).countP
        (fun r => decide (r.2.1.data.getLast? = some '\n'))
      = elems.length - 1 := by
  exact ⟨getTextGo_length elems.length s.index elems 0,
    getTextGo_count elems.length s.index elems 0 (by simp)⟩

end Lira
